import Mathlib

/-!
# co2mon: the device protocol layer of `src/device.c`

A shallow embedding of `src/device.c` (device lookup, session setup, the
control transfer that sends the magic table, the interrupt transfer that reads
one frame, and the frame cipher `decode_buf`), followed by the properties the
specification states about it.

Conventions of the embedding.

* A byte buffer (`unsigned char x[8]`, `char x[8]`) is a `List Nat` of stored
  bytes; `x[i]` reads with `List.getD` and writes with `List.set`.
* Pointers (`libusb_device *`, `libusb_device_handle *`) are natural numbers,
  `NULL` is `0`.
* C `int` values that can be negative are `Int`; values that are non-negative
  by construction (promoted `unsigned char` expressions) are `Nat`.
  Conversions to `unsigned char`, `char`, `uint16_t` and `size_t` are written
  out with the modulus of the target type.
* What the build target fixes (the width of pointers and of `size_t`, the
  signedness of plain `char`) is a `Platform` argument.
* The libusb layer is a record of functions, `Libusb`; every function of the
  file returns its C return value together with the buffers it wrote and the
  trace of side effects it performed, in program order.
-/

namespace Co2mon

/-! ## Build target -/

/-- The two data models the file is built for: 32-bit pointers and `size_t`
(ILP32) or 64-bit ones (LP64, LLP64). `int` is 32 bits wide in both. -/
inductive DataModel where
  | ilp32
  | lp64
  deriving DecidableEq, Repr

/-- What the C implementation fixes: the data model, whether plain `char` is a
signed type (x86) or an unsigned one (ARM Linux), and whether `__linux__` is
defined. -/
structure Platform where
  model : DataModel
  char_signed : Bool
  linux : Bool
  deriving DecidableEq, Repr

/-- The value of `sizeof(T *)`, in bytes. -/
def Platform.sizeof_ptr (p : Platform) : Nat :=
  match p.model with
  | DataModel.ilp32 => 4
  | DataModel.lp64 => 8

/-- Width of `size_t`, in bits. -/
def Platform.size_bits (p : Platform) : Nat :=
  match p.model with
  | DataModel.ilp32 => 32
  | DataModel.lp64 => 64

/-- Conversion of an `int` to `size_t` (the usual arithmetic conversion of
`int != sizeof ...`): reduction modulo `2 ^ size_bits`. -/
def to_size_t (p : Platform) (v : Int) : Nat :=
  (v % (2 : Int) ^ p.size_bits).toNat

/-- Conversion of a `size_t` value to `uint16_t` (the `wLength` argument of
`libusb_control_transfer`). -/
def to_uint16 (v : Nat) : Nat := v % 65536

/-- Range of a C `int`. -/
def IsCInt (v : Int) : Prop := -2147483648 ≤ v ∧ v ≤ 2147483647

instance (v : Int) : Decidable (IsCInt v) := by
  unfold IsCInt; infer_instance

/-! ## Character types -/

/-- Conversion of a non-negative `int` to `unsigned char`. -/
def to_uchar (v : Nat) : Nat := v % 256

/-- Conversion of an `int` to plain `char`: the value congruent modulo 256 in
`[-128, 127]` when `char` is signed (what GCC and Clang define for a value out
of range), in `[0, 255]` when it is not. -/
def to_char (p : Platform) (v : Int) : Int :=
  if p.char_signed then (v + 128) % 256 - 128 else v % 256

/-- The byte that memory holds for a `char` value. -/
def char_byte (c : Int) : Nat := (c % 256).toNat

/-- The `char` value read from a stored byte. -/
def byte_char (p : Platform) (b : Nat) : Int :=
  if p.char_signed && decide (128 ≤ b) then (b : Int) - 256 else (b : Int)

/-- An 8-byte buffer: eight stored bytes. -/
def IsFrame (l : List Nat) : Prop := l.length = 8 ∧ ∀ x ∈ l, x < 256

instance (l : List Nat) : Decidable (IsFrame l) := by
  unfold IsFrame; infer_instance

/-! ## The frame cipher (`device.c`, lines 131-171) -/

/-- Lines 131-137, `swap_char(&buf[a], &buf[b])`: the two pointers are the
positions `a` and `b` of the buffer `mem`. -/
def swap_char (mem : List Nat) (a b : Nat) : List Nat :=
  let tmp := mem.getD a 0
  let mem1 := mem.set a (mem.getD b 0)
  mem1.set b tmp

/-- Line 142: `const unsigned char magic_word[8] = "Htemp99e"`, as ASCII
codes. -/
def magic_word : List Nat := [0x48, 0x74, 0x65, 0x6D, 0x70, 0x39, 0x39, 0x65]

/-- Lines 147-150: the four swaps, in program order. -/
def decode_swaps (buf : List Nat) : List Nat :=
  let b1 := swap_char buf 0 2
  let b2 := swap_char b1 1 4
  let b3 := swap_char b2 3 7
  swap_char b3 5 6

/-- Lines 152-155: `for (i = 0; i < 8; ++i) buf[i] ^= magic_table[i];`. The
compound assignment converts the `int` result back to `unsigned char`. -/
def decode_xor (buf magic_table : List Nat) : List Nat :=
  (List.range 8).foldl
    (fun b i => b.set i (to_uchar (b.getD i 0 ^^^ magic_table.getD i 0))) buf

/-- The assignment `result[i] = v` for an `int` value `v`: conversion to `char`,
then the byte is stored. -/
def store_char (p : Platform) (result : List Nat) (i : Nat) (v : Int) : List Nat :=
  result.set i (char_byte (to_char p v))

/-- Lines 157-165: the shift stage. `tmp` is an `unsigned char`, so
`buf[7] << 5` is truncated when it is saved; the other right-hand sides are
`int` expressions (`buf[i] << 5` is up to 13 bits wide) converted to `char` by
the assignment. -/
def decode_shift (p : Platform) (result buf : List Nat) : List Nat :=
  let tmp := to_uchar (buf.getD 7 0 <<< 5)
  let r7 := store_char p result 7 ((buf.getD 6 0 <<< 5 ||| buf.getD 7 0 >>> 3 : Nat) : Int)
  let r6 := store_char p r7 6 ((buf.getD 5 0 <<< 5 ||| buf.getD 6 0 >>> 3 : Nat) : Int)
  let r5 := store_char p r6 5 ((buf.getD 4 0 <<< 5 ||| buf.getD 5 0 >>> 3 : Nat) : Int)
  let r4 := store_char p r5 4 ((buf.getD 3 0 <<< 5 ||| buf.getD 4 0 >>> 3 : Nat) : Int)
  let r3 := store_char p r4 3 ((buf.getD 2 0 <<< 5 ||| buf.getD 3 0 >>> 3 : Nat) : Int)
  let r2 := store_char p r3 2 ((buf.getD 1 0 <<< 5 ||| buf.getD 2 0 >>> 3 : Nat) : Int)
  let r1 := store_char p r2 1 ((buf.getD 0 0 <<< 5 ||| buf.getD 1 0 >>> 3 : Nat) : Int)
  store_char p r1 0 ((tmp ||| buf.getD 0 0 >>> 3 : Nat) : Int)

/-- Lines 167-170: `for (i = 0; i < 8; ++i)
result[i] -= (magic_word[i] << 4) | (magic_word[i] >> 4);`. The right-hand
side is an `int` (up to 12 bits wide); `result[i]` is read as a `char`, the
difference is taken in `int` and converted back to `char`. -/
def decode_sub (p : Platform) (result : List Nat) : List Nat :=
  (List.range 8).foldl
    (fun r i =>
      store_char p r i
        (byte_char p (r.getD i 0)
          - ((magic_word.getD i 0 <<< 4 ||| magic_word.getD i 0 >>> 4 : Nat) : Int)))
    result

/-- The two buffers `decode_buf` writes. -/
structure DecodeMem where
  result : List Nat
  buf : List Nat
  deriving DecidableEq, Repr

/-- Lines 139-171, `decode_buf(result, buf, magic_table)`: swaps and XOR are
done in place in `buf`, the shift stage and the subtraction write `result`. -/
def decode_buf (p : Platform) (result buf magic_table : List Nat) : DecodeMem :=
  let buf1 := decode_swaps buf
  let buf2 := decode_xor buf1 magic_table
  let res1 := decode_shift p result buf2
  let res2 := decode_sub p res1
  { result := res2, buf := buf2 }

/-! ## The libusb layer -/

/-- Outcome of `libusb_get_device_descriptor(dev, &desc)`: the status and the
two `uint16_t` fields of `desc` the file reads. -/
structure DescriptorResult where
  r : Int
  idVendor : Nat
  idProduct : Nat
  deriving DecidableEq, Repr

/-- Outcome of `libusb_get_device_list(NULL, &devs)`: the count, and the entries
of `devs` that precede its `NULL` terminator. -/
structure DeviceList where
  cnt : Int
  devs : List Nat
  deriving DecidableEq, Repr

/-- Outcome of `libusb_open(dev, &handle)`. -/
structure OpenResult where
  r : Int
  handle : Nat
  deriving DecidableEq, Repr

/-- Outcome of `libusb_interrupt_transfer(handle, endpoint, data, length,
&actual_length, timeout)`: the status, the value left in `actual_length`, and
the contents of `data` after the call. -/
structure InterruptResult where
  r : Int
  actual_length : Int
  data : List Nat
  deriving DecidableEq, Repr

/-- The functions of libusb whose results the file uses, with the arguments in
the order of the C prototypes (the context argument of
`libusb_get_device_list` is `NULL` throughout and is left out). -/
structure Libusb where
  libusb_get_device_list : DeviceList
  libusb_get_device_descriptor : Nat → DescriptorResult
  libusb_open : Nat → OpenResult
  libusb_claim_interface : Nat → Int → Int
  libusb_control_transfer : Nat → Nat → Nat → Nat → Nat → List Nat → Nat → Nat → Int
  libusb_interrupt_transfer : Nat → Nat → List Nat → Int → Nat → InterruptResult

/-- Constants of `libusb.h` (enum `libusb_endpoint_direction`). -/
def LIBUSB_ENDPOINT_IN : Nat := 0x80

/-- Constants of `libusb.h` (enum `libusb_endpoint_direction`). -/
def LIBUSB_ENDPOINT_OUT : Nat := 0x00

/-- Constants of `libusb.h` (enum `libusb_request_type`). -/
def LIBUSB_REQUEST_TYPE_STANDARD : Nat := 0x00

/-- Constants of `libusb.h` (enum `libusb_request_type`). -/
def LIBUSB_REQUEST_TYPE_CLASS : Nat := 0x20

/-- Constants of `libusb.h` (enum `libusb_request_recipient`). -/
def LIBUSB_RECIPIENT_INTERFACE : Nat := 0x01

/-- Constants of `libusb.h` (enum `libusb_standard_request`). -/
def LIBUSB_REQUEST_SET_CONFIGURATION : Nat := 0x09

/-- Side effects of the file, one constructor per call site: a line written to
`stderr` (with the values its format prints) or a libusb call whose result is
not used. -/
inductive Effect where
  | stderr_get_device_descriptor (r : Int)
  | stderr_get_device_list (cnt : Int)
  | stderr_open (r : Int)
  | stderr_claim_interface (r : Int)
  | stderr_control_transfer (r : Int)
  | stderr_interrupt_transfer (r : Int)
  | stderr_transferred (actual_length : Int) (expected : Nat)
  | ref_device (dev : Nat)
  | unref_device (dev : Nat)
  | free_device_list (unref_devices : Int)
  | detach_kernel_driver (handle : Nat) (interface_number : Int)
  | close (handle : Nat)
  deriving DecidableEq, Repr

/-- A C return value together with the side effects performed. -/
structure Ret (α : Type) where
  ret : α
  trace : List Effect
  deriving DecidableEq, Repr

/-! ## Device lookup (`device.c`, lines 24-79) -/

/-- Lines 24-42, `is_co2_device(dev)`. -/
def is_co2_device (usb : Libusb) (dev : Nat) : Ret Int :=
  let desc := usb.libusb_get_device_descriptor dev
  if desc.r < 0 then
    { ret := 0, trace := [Effect.stderr_get_device_descriptor desc.r] }
  else if desc.idVendor = 0x04d9 ∧ desc.idProduct = 0xa052 then
    { ret := 1, trace := [] }
  else
    { ret := 0, trace := [] }

/-- Lines 60-68, the loop `for (i = 0; (dev = devs[i]) != NULL; ++i)` from
index `i` on, with `result` still `NULL`: the value of `result` when the loop
is left. `devs` holds the entries before the `NULL` terminator, so the read of
`devs[i]` at `i = devs.length` gives `NULL`. `fuel` bounds the number of
entries read; the loop reads at most `devs.length + 1` of them. -/
def find_loop (usb : Libusb) (devs : List Nat) : Nat → Nat → Ret Nat
  | 0, _ => { ret := 0, trace := [] }
  | fuel + 1, i =>
    let dev := devs.getD i 0
    if dev = 0 then
      { ret := 0, trace := [] }
    else
      let m := is_co2_device usb dev
      if m.ret ≠ 0 then
        { ret := dev, trace := m.trace ++ [Effect.ref_device dev] }
      else
        let rest := find_loop usb devs fuel (i + 1)
        { ret := rest.ret, trace := m.trace ++ rest.trace }

/-- Lines 44-73, `co2mon_find_device()`. -/
def co2mon_find_device (usb : Libusb) : Ret Nat :=
  let l := usb.libusb_get_device_list
  if l.cnt < 0 then
    { ret := 0, trace := [Effect.stderr_get_device_list l.cnt] }
  else
    let found := find_loop usb l.devs (l.devs.length + 1) 0
    { ret := found.ret, trace := found.trace ++ [Effect.free_device_list 1] }

/-- Lines 75-79, `co2mon_release_device(dev)`. -/
def co2mon_release_device (dev : Nat) : Ret Unit :=
  { ret := (), trace := [Effect.unref_device dev] }

/-! ## Session setup (`device.c`, lines 81-129) -/

/-- Lines 81-105, `co2mon_open_device(dev)`. -/
def co2mon_open_device (p : Platform) (usb : Libusb) (dev : Nat) : Ret Nat :=
  let o := usb.libusb_open dev
  if o.r ≠ 0 then
    { ret := 0, trace := [Effect.stderr_open o.r] }
  else
    let detach := if p.linux then [Effect.detach_kernel_driver o.handle 0] else []
    let r := usb.libusb_claim_interface o.handle 0
    if r ≠ 0 then
      { ret := 0, trace := detach ++ [Effect.stderr_claim_interface r, Effect.close o.handle] }
    else
      { ret := o.handle, trace := detach }

/-- Lines 107-111, `co2mon_close_device(handle)`. -/
def co2mon_close_device (handle : Nat) : Ret Unit :=
  { ret := (), trace := [Effect.close handle] }

/-- The value of `sizeof(magic_table)` inside `co2mon_send_magic_table`
(lines 121 and 123). The parameter is declared `unsigned char magic_table[8]`;
a parameter of array type is adjusted to a pointer (C11 6.7.6.3 p7), so the
operand has type `unsigned char *` and the value is the size of a pointer. -/
def sizeof_magic_table (p : Platform) : Nat := p.sizeof_ptr

/-- The `wLength` argument line 121 passes to `libusb_control_transfer`. -/
def magic_table_wLength (p : Platform) : Nat := to_uint16 (sizeof_magic_table p)

/-- Lines 113-129, `co2mon_send_magic_table(handle, magic_table)`. -/
def co2mon_send_magic_table (p : Platform) (usb : Libusb) (handle : Nat)
    (magic_table : List Nat) : Ret Int :=
  let r := usb.libusb_control_transfer handle
    (LIBUSB_ENDPOINT_OUT ||| LIBUSB_REQUEST_TYPE_CLASS ||| LIBUSB_RECIPIENT_INTERFACE)
    LIBUSB_REQUEST_SET_CONFIGURATION 0x0300 0 magic_table (magic_table_wLength p) 2000
  if r < 0 ∨ to_size_t p r ≠ sizeof_magic_table p then
    { ret := 0, trace := [Effect.stderr_control_transfer r] }
  else
    { ret := 1, trace := [] }

/-! ## Reading one frame (`device.c`, lines 173-195) -/

/-- What `co2mon_read_data` leaves: its return value, the caller's `result`
buffer, and the side effects. -/
structure ReadOutcome where
  ret : Int
  result : List Nat
  trace : List Effect
  deriving DecidableEq, Repr

/-- Lines 177-181: the interrupt transfer into the zeroed local array `data`;
`sizeof(data)` is 8, the size of an array of 8 bytes. -/
def read_transfer (usb : Libusb) (handle : Nat) : InterruptResult :=
  let data := [0, 0, 0, 0, 0, 0, 0, 0]
  usb.libusb_interrupt_transfer handle
    (LIBUSB_ENDPOINT_IN ||| LIBUSB_REQUEST_TYPE_STANDARD ||| LIBUSB_RECIPIENT_INTERFACE)
    data 8 5000

/-- Lines 173-195, `co2mon_read_data(handle, magic_table, result)`. -/
def co2mon_read_data (p : Platform) (usb : Libusb) (handle : Nat)
    (magic_table result : List Nat) : ReadOutcome :=
  let x := read_transfer usb handle
  if x.r < 0 then
    { ret := x.r, result := result, trace := [Effect.stderr_interrupt_transfer x.r] }
  else if to_size_t p x.actual_length ≠ 8 then
    { ret := 0, result := result, trace := [Effect.stderr_transferred x.actual_length 8] }
  else
    let m := decode_buf p result x.data magic_table
    { ret := x.actual_length, result := m.result, trace := [] }

/-! ## The session, as a caller goes through it

The file keeps no session state of its own: a session is the handle
`co2mon_open_device` returned. `Session.armed` is a ghost flag that records
whether `co2mon_send_magic_table` has returned 1 on the handle. -/

/-- A session: the open handle, and whether the magic table has been sent
successfully. -/
structure Session where
  handle : Nat
  armed : Bool
  deriving DecidableEq, Repr

/-- The session `co2mon_open_device` starts, if it returns a handle. -/
def session_open (p : Platform) (usb : Libusb) (dev : Nat) : Option Session :=
  let h := (co2mon_open_device p usb dev).ret
  if h = 0 then none else some { handle := h, armed := false }

/-- The session after a call of `co2mon_send_magic_table`: armed once the call
returns 1, unchanged otherwise. -/
def session_arm (p : Platform) (usb : Libusb) (s : Session) (magic_table : List Nat) :
    Session :=
  if (co2mon_send_magic_table p usb s.handle magic_table).ret = 1 then
    { s with armed := true }
  else s

/-- A poll: the call of `co2mon_read_data` on the session's handle. -/
def session_poll (p : Platform) (usb : Libusb) (s : Session)
    (magic_table result : List Nat) : ReadOutcome :=
  co2mon_read_data p usb s.handle magic_table result

/-! ## The frame cipher as the specification words it (section 4.3) -/

/-- Step 1 of the specification: the frame after swapping the positions
(0,2), (1,4), (3,7), (5,6); position `i` of the outcome holds the byte that
was at position `spec_swap_source[i]`. -/
def spec_swap_source : List Nat := [2, 4, 0, 7, 1, 6, 5, 3]

/-- Step 1: the permuted frame `p`. -/
def spec_swap (raw : List Nat) : List Nat :=
  spec_swap_source.map (fun j => raw.getD j 0)

/-- Step 2: position-wise XOR with the key, `b[i] = p[i] XOR key[i]`. -/
def spec_xor (pm key : List Nat) : List Nat :=
  (List.range 8).map (fun i => pm.getD i 0 ^^^ key.getD i 0)

/-- Step 4: the nibble-swapped value of a byte, `(w << 4) | (w >> 4)` on
unsigned 8-bit values. -/
def spec_nibble_swap (w : Nat) : Nat := (w <<< 4 ||| w >>> 4) % 256

/-- Step 4: the nibble-swapped bytes of the magic word `"Htemp99e"`. -/
def spec_bias : List Nat := ("Htemp99e".toList.map Char.toNat).map spec_nibble_swap

/-- Steps 3 and 4 at output position `i`: `((b[i-1] << 5) | (b[i] >> 3)) - c[i]`
modulo 256, where position `-1` is position 7. -/
def spec_byte (b : List Nat) (i : Nat) : Nat :=
  ((((b.getD ((i + 7) % 8) 0 <<< 5 ||| b.getD i 0 >>> 3 : Nat) : Int)
      - (spec_bias.getD i 0 : Int)) % 256).toNat

/-- The decoded frame of the specification's four steps. -/
def spec_decode (raw key : List Nat) : List Nat :=
  (List.range 8).map (spec_byte (spec_xor (spec_swap raw) key))

/-- The device predicate of section 4.1: the descriptor reads successfully and
carries vendor id `0x04d9` and product id `0xa052`. -/
def IsCo2Device (usb : Libusb) (dev : Nat) : Prop :=
  0 ≤ (usb.libusb_get_device_descriptor dev).r
    ∧ (usb.libusb_get_device_descriptor dev).idVendor = 0x04d9
    ∧ (usb.libusb_get_device_descriptor dev).idProduct = 0xa052

instance (usb : Libusb) (dev : Nat) : Decidable (IsCo2Device usb dev) := by
  unfold IsCo2Device; infer_instance

/-- The first element of a device list that satisfies `IsCo2Device`, `NULL` when
there is none. -/
def first_co2 (usb : Libusb) : List Nat → Nat
  | [] => 0
  | d :: ds => if IsCo2Device usb d then d else first_co2 usb ds

/-! ## The 64-bit window and the inverse of the cipher -/

/-- The 64-bit number whose big-endian bytes are the buffer: byte 0 is the
most significant. -/
def window64 (b : List Nat) : Nat := b.foldl (fun acc x => acc * 256 + x) 0

/-- Rotation of a 64-bit word right by `n` bits. -/
def rotr64 (w n : Nat) : Nat := (w >>> n ||| w <<< (64 - n)) % 2 ^ 64

/-- Steps 3 and 4 of the specification on a whole buffer `b`. -/
def spec_shift_sub (b : List Nat) : List Nat := (List.range 8).map (spec_byte b)

/-- The buffer that steps 3 and 4 take to `frame`: add the bias back, then
rotate the window left by 3 bits. -/
def encode_window (frame : List Nat) : List Nat :=
  let o := (List.range 8).map (fun i => (frame.getD i 0 + spec_bias.getD i 0) % 256)
  (List.range 8).map (fun i => o.getD i 0 % 32 * 8 + o.getD ((i + 1) % 8) 0 / 32)

/-- The raw frame that decodes to `frame` under `key`: undo steps 4 and 3, XOR
with the key, undo the swaps (they are their own inverse). -/
def encode_buf (key frame : List Nat) : List Nat :=
  spec_swap (spec_xor (encode_window frame) key)

/-! ## Sample inputs -/

/-- Linux on x86-64: LP64, plain `char` signed. -/
def linux_x86_64 : Platform :=
  { model := DataModel.lp64, char_signed := true, linux := true }

/-- Linux on 32-bit ARM: ILP32, plain `char` unsigned. -/
def linux_arm32 : Platform :=
  { model := DataModel.ilp32, char_signed := false, linux := true }

/-- A key. -/
def sample_key : List Nat := [0xc4, 0xc6, 0xc0, 0x92, 0x40, 0x23, 0xdc, 0x96]

/-- A raw frame; under `sample_key` it decodes to `sample_frame`. -/
def sample_raw : List Nat := [70, 228, 102, 32, 137, 70, 191, 130]

/-- A decoded frame: tag `0x50`, value `0x029a`, checksum `0xec`, terminator
`0x0d`. -/
def sample_frame : List Nat := [0x50, 0x02, 0x9a, 0xec, 0x0d, 0, 0, 0]

/-- A bus with three devices, the pointers 11, 12 and 13. Device 11 has the
vendor id of the sensor and another product id, device 12 is the sensor but its
descriptor cannot be read, device 13 is the sensor. Opening and claiming
succeed, a control transfer writes all the bytes it is asked to write, an
interrupt transfer delivers `sample_raw`. -/
def sample_usb : Libusb :=
  { libusb_get_device_list := { cnt := 3, devs := [11, 12, 13] }
    libusb_get_device_descriptor := fun dev =>
      if dev = 11 then { r := 0, idVendor := 0x04d9, idProduct := 0x1234 }
      else if dev = 12 then { r := -1, idVendor := 0x04d9, idProduct := 0xa052 }
      else { r := 0, idVendor := 0x04d9, idProduct := 0xa052 }
    libusb_open := fun dev => { r := 0, handle := 100 + dev }
    libusb_claim_interface := fun _ _ => 0
    libusb_control_transfer := fun _ _ _ _ _ _ wLength _ => (wLength : Int)
    libusb_interrupt_transfer := fun _ _ _ _ _ =>
      { r := 0, actual_length := 8, data := sample_raw } }

/-- The sample bus with an interrupt transfer that reports `r` and
`actual_length` and leaves `data` in the buffer. -/
def sample_usb_transfer (r actual_length : Int) (data : List Nat) : Libusb :=
  { sample_usb with
    libusb_interrupt_transfer := fun _ _ _ _ _ =>
      { r := r, actual_length := actual_length, data := data } }

/-- The sample bus with a device list call that reports `cnt` and `devs`. -/
def sample_usb_list (cnt : Int) (devs : List Nat) : Libusb :=
  { sample_usb with libusb_get_device_list := { cnt := cnt, devs := devs } }

/-- The sample bus with a control transfer that reports `r`. -/
def sample_usb_control (r : Int) : Libusb :=
  { sample_usb with libusb_control_transfer := fun _ _ _ _ _ _ _ _ => r }

/-! ## Helper lemmas: bytes and buffers -/

theorem spec_bias_eq : spec_bias = [0x84, 0x47, 0x56, 0xD6, 0x07, 0x93, 0x93, 0x56] := by
  decide

theorem range_eight : List.range 8 = [0, 1, 2, 3, 4, 5, 6, 7] := by decide

theorem magic_word_ascii : "Htemp99e".toList.map Char.toNat = magic_word := by decide

theorem list_eight {l : List Nat} (h : l.length = 8) :
    ∃ a0 a1 a2 a3 a4 a5 a6 a7, l = [a0, a1, a2, a3, a4, a5, a6, a7] := by
  match l, h with
  | [a0, a1, a2, a3, a4, a5, a6, a7], _ => exact ⟨a0, a1, a2, a3, a4, a5, a6, a7, rfl⟩

theorem isFrame_eight {a0 a1 a2 a3 a4 a5 a6 a7 : Nat} :
    IsFrame [a0, a1, a2, a3, a4, a5, a6, a7] ↔
      a0 < 256 ∧ a1 < 256 ∧ a2 < 256 ∧ a3 < 256 ∧ a4 < 256 ∧ a5 < 256 ∧ a6 < 256 ∧ a7 < 256 := by
  simp [IsFrame]

theorem or_mod_256 (a b : Nat) : (a ||| b) % 256 = a % 256 ||| b % 256 := by
  apply Nat.eq_of_testBit_eq
  intro i
  have h : (256 : Nat) = 2 ^ 8 := by norm_num
  simp only [h, Nat.testBit_mod_two_pow, Nat.testBit_or]
  cases decide (i < 8) <;> simp

theorem shl5_or_shr3 (x y : Nat) (hy : y < 256) :
    (x <<< 5 ||| y >>> 3) % 256 = (x % 8) * 32 + y / 8 := by
  have h1 : y >>> 3 = y / 8 := by rw [Nat.shiftRight_eq_div_pow]
  have h2 : x <<< 5 = 2 ^ 5 * x := by rw [Nat.shiftLeft_eq, Nat.mul_comm]
  have h3 : y / 8 < 2 ^ 5 := by norm_num; omega
  rw [h1, h2, ← Nat.mul_add_lt_is_or h3]
  omega

theorem xor_byte_lt {a k : Nat} (ha : a < 256) (hk : k < 256) : a ^^^ k < 256 :=
  Nat.xor_lt_two_pow (n := 8) ha hk

/-- Storing an `int` into a `char` keeps its residue modulo 256, whatever the
signedness of `char`. -/
theorem char_byte_to_char (p : Platform) (v : Int) :
    char_byte (to_char p v) = (v % 256).toNat := by
  unfold char_byte to_char
  cases p.char_signed
  · simp
  · simp only [if_true]; omega

/-- Reading a stored byte as a `char` changes it by a multiple of 256. -/
theorem byte_char_mod (p : Platform) (b : Nat) (hb : b < 256) :
    byte_char p b % 256 = (b : Int) := by
  unfold byte_char
  cases p.char_signed <;> simp
  · omega
  · split <;> omega

/-- The statement `result[i] -= k` after `result[i] = x`: the stored byte is
`x - k` modulo 256. -/
theorem sub_after_store (p : Platform) (x : Nat) (k : Int) :
    char_byte (to_char p (byte_char p (char_byte (to_char p (x : Int))) - k))
      = (((x : Int) - k) % 256).toNat := by
  rw [char_byte_to_char, char_byte_to_char]
  have hlt : ((x : Int) % 256).toNat < 256 := by omega
  have h := byte_char_mod p _ hlt
  omega

theorem to_uchar_xor {a k : Nat} (ha : a < 256) (hk : k < 256) :
    to_uchar (a ^^^ k) = a ^^^ k :=
  Nat.mod_eq_of_lt (xor_byte_lt ha hk)

/-- Truncating `buf[7] << 5` into `tmp` before the OR does not change the low
eight bits of `tmp | (buf[0] >> 3)`. -/
theorem tmp_or_mod (x y : Nat) :
    (to_uchar (x <<< 5) ||| y >>> 3) % 256 = (x <<< 5 ||| y >>> 3) % 256 := by
  rw [or_mod_256, or_mod_256 (x <<< 5)]
  simp [to_uchar]

/-- The subtrahend of line 169 at byte `w`, and its low eight bits. -/
theorem sub_const_mod (x : Nat) (w c : Nat) (hc : (w <<< 4 ||| w >>> 4) % 256 = c) :
    ((((x : Nat) : Int) - ((w <<< 4 ||| w >>> 4 : Nat) : Int)) % 256).toNat
      = (((x : Int) - (c : Int)) % 256).toNat := by
  omega

/-- The bytes `decode_buf` leaves in `result`, for buffers of eight bytes. -/
theorem decode_buf_result_eq (p : Platform) (result raw key : List Nat)
    (hres : result.length = 8) (hraw : IsFrame raw) (hkey : IsFrame key) :
    (decode_buf p result raw key).result = spec_decode raw key := by
  obtain ⟨r0, r1, r2, r3, r4, r5, r6, r7, rfl⟩ := list_eight hres
  obtain ⟨a0, a1, a2, a3, a4, a5, a6, a7, rfl⟩ := list_eight hraw.1
  obtain ⟨k0, k1, k2, k3, k4, k5, k6, k7, rfl⟩ := list_eight hkey.1
  obtain ⟨ha0, ha1, ha2, ha3, ha4, ha5, ha6, ha7⟩ := isFrame_eight.1 hraw
  obtain ⟨hk0, hk1, hk2, hk3, hk4, hk5, hk6, hk7⟩ := isFrame_eight.1 hkey
  simp only [decode_buf, decode_swaps, swap_char, decode_xor, decode_shift, decode_sub,
    store_char, range_eight, List.foldl_cons, List.foldl_nil, List.set_cons_zero,
    List.set_cons_succ, List.getD_cons_zero, List.getD_cons_succ, spec_decode, spec_byte,
    spec_xor, spec_swap, spec_swap_source, spec_bias_eq, magic_word, List.map_cons, List.map_nil,
    sub_after_store, to_uchar_xor, ha0, ha1, ha2, ha3, ha4, ha5, ha6, ha7, hk0, hk1, hk2, hk3,
    hk4, hk5, hk6, hk7, Nat.reduceAdd, Nat.reduceMod]
  simp only [fun x => sub_const_mod x 72 132 (by decide),
    fun x => sub_const_mod x 116 71 (by decide), fun x => sub_const_mod x 101 86 (by decide),
    fun x => sub_const_mod x 109 214 (by decide), fun x => sub_const_mod x 112 7 (by decide),
    fun x => sub_const_mod x 57 147 (by decide)]
  have h := tmp_or_mod (a3 ^^^ k7) (a2 ^^^ k0)
  congr 1
  omega

theorem to_size_t_eq_eight (p : Platform) (v : Int) (hv : IsCInt v) :
    to_size_t p v = 8 ↔ v = 8 := by
  unfold IsCInt at hv
  unfold to_size_t Platform.size_bits
  cases p.model <;> simp only <;> norm_num <;> omega

theorem swaps_eight (a0 a1 a2 a3 a4 a5 a6 a7 : Nat) :
    decode_swaps [a0, a1, a2, a3, a4, a5, a6, a7] = [a2, a4, a0, a7, a1, a6, a5, a3] := by
  simp [decode_swaps, swap_char]

theorem read_data_of_full (p : Platform) (usb : Libusb) (handle : Nat)
    (key result : List Nat) (hr : 0 ≤ (read_transfer usb handle).r)
    (hlen : (read_transfer usb handle).actual_length = 8) :
    (co2mon_read_data p usb handle key result).ret = 8
      ∧ (co2mon_read_data p usb handle key result).result
          = (decode_buf p result (read_transfer usb handle).data key).result
      ∧ (co2mon_read_data p usb handle key result).trace = [] := by
  have h8 : to_size_t p 8 = 8 :=
    (to_size_t_eq_eight p 8 (by unfold IsCInt; omega)).2 rfl
  unfold co2mon_read_data
  simp only [not_lt.2 hr, hlen, h8, if_false, ne_eq, not_true_eq_false, and_self]

theorem read_data_of_short (p : Platform) (usb : Libusb) (handle : Nat)
    (key result : List Nat) (hr : 0 ≤ (read_transfer usb handle).r)
    (hint : IsCInt (read_transfer usb handle).actual_length)
    (hlen : (read_transfer usb handle).actual_length ≠ 8) :
    (co2mon_read_data p usb handle key result).ret = 0
      ∧ (co2mon_read_data p usb handle key result).result = result
      ∧ (co2mon_read_data p usb handle key result).trace
          = [Effect.stderr_transferred (read_transfer usb handle).actual_length 8] := by
  have h8 : to_size_t p (read_transfer usb handle).actual_length ≠ 8 :=
    fun h => hlen ((to_size_t_eq_eight p _ hint).1 h)
  unfold co2mon_read_data
  simp only [not_lt.2 hr, h8, if_false, ne_eq, not_false_eq_true, if_true, and_self]

theorem read_data_of_error (p : Platform) (usb : Libusb) (handle : Nat)
    (key result : List Nat) (hr : (read_transfer usb handle).r < 0) :
    (co2mon_read_data p usb handle key result).ret = (read_transfer usb handle).r
      ∧ (co2mon_read_data p usb handle key result).result = result
      ∧ (co2mon_read_data p usb handle key result).trace
          = [Effect.stderr_interrupt_transfer (read_transfer usb handle).r] := by
  unfold co2mon_read_data
  simp only [hr, if_true, and_self]

theorem session_open_eq_some {p : Platform} {usb : Libusb} {dev : Nat} {s : Session}
    (h : session_open p usb dev = some s) :
    s.handle = (co2mon_open_device p usb dev).ret ∧ s.handle ≠ 0 ∧ s.armed = false := by
  unfold session_open at h
  by_cases h0 : (co2mon_open_device p usb dev).ret = 0
  · simp [h0] at h
  · simp only [h0, if_false, Option.some.injEq] at h
    subst h
    exact ⟨rfl, h0, rfl⟩

/-- The return value of `co2mon_send_magic_table` on any platform: 1 exactly
when the transfer reports as many bytes as a pointer is wide. -/
theorem send_magic_table_ret (p : Platform) (usb : Libusb) (handle : Nat) (key : List Nat)
    (r : Int) (hint : IsCInt r)
    (hr : usb.libusb_control_transfer handle
      (LIBUSB_ENDPOINT_OUT ||| LIBUSB_REQUEST_TYPE_CLASS ||| LIBUSB_RECIPIENT_INTERFACE)
      LIBUSB_REQUEST_SET_CONFIGURATION 0x0300 0 key (magic_table_wLength p) 2000 = r) :
    ((co2mon_send_magic_table p usb handle key).ret = 1 ↔ r = (p.sizeof_ptr : Int))
      ∧ ((co2mon_send_magic_table p usb handle key).ret = 0 ↔ r ≠ (p.sizeof_ptr : Int)) := by
  unfold IsCInt at hint
  have hsz : (r < 0 ∨ to_size_t p r ≠ sizeof_magic_table p) ↔ r ≠ (p.sizeof_ptr : Int) := by
    unfold to_size_t sizeof_magic_table Platform.size_bits Platform.sizeof_ptr
    cases p.model <;> simp only <;> norm_num <;> omega
  unfold co2mon_send_magic_table
  simp only [hr]
  by_cases h : r = (p.sizeof_ptr : Int)
  · have hn : ¬ (r < 0 ∨ to_size_t p r ≠ sizeof_magic_table p) := fun hc => hsz.1 hc h
    rw [if_neg hn]
    simp [h]
  · have hy : r < 0 ∨ to_size_t p r ≠ sizeof_magic_table p := hsz.2 h
    rw [if_pos hy]
    simp [h]

/-- Where pointers are 8 bytes wide, `co2mon_send_magic_table` asks for 8 bytes
and returns 1 exactly when the transfer reports 8. -/
theorem send_magic_table_lp64 (p : Platform) (hp : p.model = DataModel.lp64) (usb : Libusb)
    (handle : Nat) (key : List Nat)
    (hint : IsCInt (usb.libusb_control_transfer handle
      (LIBUSB_ENDPOINT_OUT ||| LIBUSB_REQUEST_TYPE_CLASS ||| LIBUSB_RECIPIENT_INTERFACE)
      LIBUSB_REQUEST_SET_CONFIGURATION 0x0300 0 key 8 2000)) :
    magic_table_wLength p = 8
      ∧ ((co2mon_send_magic_table p usb handle key).ret = 1 ↔
          usb.libusb_control_transfer handle
            (LIBUSB_ENDPOINT_OUT ||| LIBUSB_REQUEST_TYPE_CLASS ||| LIBUSB_RECIPIENT_INTERFACE)
            LIBUSB_REQUEST_SET_CONFIGURATION 0x0300 0 key 8 2000 = 8) := by
  have hw : magic_table_wLength p = 8 := by
    simp [magic_table_wLength, sizeof_magic_table, Platform.sizeof_ptr, hp, to_uint16]
  have hs : (p.sizeof_ptr : Int) = 8 := by simp [Platform.sizeof_ptr, hp]
  refine ⟨hw, ?_⟩
  have h := (send_magic_table_ret p usb handle key _ (hw ▸ hint) rfl).1
  rw [hs, hw] at h
  exact h

/-! ## Helper lemmas: the cipher is invertible -/

theorem spec_decode_eq (raw key : List Nat) :
    spec_decode raw key = spec_shift_sub (spec_xor (spec_swap raw) key) := rfl

theorem spec_swap_xor_isFrame (raw key : List Nat) (hraw : IsFrame raw) (hkey : IsFrame key) :
    IsFrame (spec_xor (spec_swap raw) key) := by
  obtain ⟨a0, a1, a2, a3, a4, a5, a6, a7, rfl⟩ := list_eight hraw.1
  obtain ⟨k0, k1, k2, k3, k4, k5, k6, k7, rfl⟩ := list_eight hkey.1
  obtain ⟨ha0, ha1, ha2, ha3, ha4, ha5, ha6, ha7⟩ := isFrame_eight.1 hraw
  obtain ⟨hk0, hk1, hk2, hk3, hk4, hk5, hk6, hk7⟩ := isFrame_eight.1 hkey
  simp only [spec_xor, spec_swap, spec_swap_source, range_eight, List.map_cons, List.map_nil,
    List.getD_cons_zero, List.getD_cons_succ]
  exact isFrame_eight.2 ⟨xor_byte_lt ha2 hk0, xor_byte_lt ha4 hk1, xor_byte_lt ha0 hk2,
    xor_byte_lt ha7 hk3, xor_byte_lt ha1 hk4, xor_byte_lt ha6 hk5, xor_byte_lt ha5 hk6,
    xor_byte_lt ha3 hk7⟩

/-- XOR with the key and the swaps undo themselves. -/
theorem spec_swap_xor_cancel (x key : List Nat) (hx : x.length = 8) (hkey : key.length = 8) :
    spec_swap (spec_xor (spec_xor (spec_swap x) key) key) = x
      ∧ spec_xor (spec_swap (spec_swap (spec_xor x key))) key = x := by
  obtain ⟨a0, a1, a2, a3, a4, a5, a6, a7, rfl⟩ := list_eight hx
  obtain ⟨k0, k1, k2, k3, k4, k5, k6, k7, rfl⟩ := list_eight hkey
  simp only [spec_xor, spec_swap, spec_swap_source, range_eight, List.map_cons, List.map_nil,
    List.getD_cons_zero, List.getD_cons_succ, Nat.xor_cancel_right, and_self]

theorem spec_shift_sub_isFrame (b : List Nat) : IsFrame (spec_shift_sub b) := by
  simp only [spec_shift_sub, range_eight, List.map_cons, List.map_nil, spec_byte]
  refine isFrame_eight.2 ⟨?_, ?_, ?_, ?_, ?_, ?_, ?_, ?_⟩ <;> omega

/-- Adding the bias back to a decoded byte gives the low eight bits of the
shifted value. -/
theorem add_bias_byte (x c : Nat) :
    ((((x : Int) - (c : Int)) % 256).toNat + c) % 256 = x % 256 := by
  omega

/-- One byte of the left rotation: from two neighbouring bytes of the rotated
window back to the byte they share. -/
theorem unshift_byte (x y a b c cx cy : Nat) (hb : b < 256) (hc : c < 256)
    (hx : x % 256 = a % 8 * 32 + b / 8) (hy : y % 256 = b % 8 * 32 + c / 8) :
    ((((x : Int) - (cx : Int)) % 256).toNat + cx) % 256 % 32 * 8
        + ((((y : Int) - (cy : Int)) % 256).toNat + cy) % 256 / 32 = b := by
  rw [add_bias_byte x cx, add_bias_byte y cy]
  omega

/-- One byte of the right rotation applied to the left rotation. -/
theorem reshift_byte (o1 o2 o3 : Nat) (h2 : o2 < 256) (h3 : o3 < 256) :
    (o1 % 32 * 8 + o2 / 32) % 8 * 32 + (o2 % 32 * 8 + o3 / 32) / 8 = o2 := by
  omega

/-- Subtracting the bias from a shifted value whose low eight bits are
`f + c` gives `f`. -/
theorem sub_bias_byte (x f c : Nat) (hf : f < 256) (hx : x % 256 = (f + c) % 256) :
    (((x : Int) - (c : Int)) % 256).toNat = f := by
  omega

theorem encode_window_byte_lt (o1 o2 : Nat) : o1 % 32 * 8 + o2 % 256 / 32 < 256 := by
  omega

/-- Steps 3 and 4 are undone by `encode_window`. -/
theorem encode_window_shift_sub (b : List Nat) (hb : IsFrame b) :
    encode_window (spec_shift_sub b) = b := by
  obtain ⟨b0, b1, b2, b3, b4, b5, b6, b7, rfl⟩ := list_eight hb.1
  obtain ⟨h0, h1, h2, h3, h4, h5, h6, h7⟩ := isFrame_eight.1 hb
  have e0 := shl5_or_shr3 b7 b0 h0
  have e1 := shl5_or_shr3 b0 b1 h1
  have e2 := shl5_or_shr3 b1 b2 h2
  have e3 := shl5_or_shr3 b2 b3 h3
  have e4 := shl5_or_shr3 b3 b4 h4
  have e5 := shl5_or_shr3 b4 b5 h5
  have e6 := shl5_or_shr3 b5 b6 h6
  have e7 := shl5_or_shr3 b6 b7 h7
  simp only [encode_window, spec_shift_sub, spec_byte, spec_bias_eq, range_eight, List.map_cons,
    List.map_nil, List.getD_cons_zero, List.getD_cons_succ, Nat.reduceAdd, Nat.reduceMod]
  rw [unshift_byte _ _ b7 b0 b1 132 71 h0 h1 e0 e1,
    unshift_byte _ _ b0 b1 b2 71 86 h1 h2 e1 e2,
    unshift_byte _ _ b1 b2 b3 86 214 h2 h3 e2 e3,
    unshift_byte _ _ b2 b3 b4 214 7 h3 h4 e3 e4,
    unshift_byte _ _ b3 b4 b5 7 147 h4 h5 e4 e5,
    unshift_byte _ _ b4 b5 b6 147 147 h5 h6 e5 e6,
    unshift_byte _ _ b5 b6 b7 147 86 h6 h7 e6 e7,
    unshift_byte _ _ b6 b7 b0 86 132 h7 h0 e7 e0]

/-- The buffer `encode_window` builds is taken to the frame by steps 3 and 4. -/
theorem shift_sub_encode_window (f : List Nat) (hf : IsFrame f) :
    IsFrame (encode_window f) ∧ spec_shift_sub (encode_window f) = f := by
  obtain ⟨f0, f1, f2, f3, f4, f5, f6, f7, rfl⟩ := list_eight hf.1
  obtain ⟨h0, h1, h2, h3, h4, h5, h6, h7⟩ := isFrame_eight.1 hf
  simp only [encode_window, spec_bias_eq, range_eight, List.map_cons,
    List.map_nil, List.getD_cons_zero, List.getD_cons_succ, Nat.reduceAdd, Nat.reduceMod]
  have l0 := encode_window_byte_lt ((f0 + 132) % 256) (f1 + 71)
  have l1 := encode_window_byte_lt ((f1 + 71) % 256) (f2 + 86)
  have l2 := encode_window_byte_lt ((f2 + 86) % 256) (f3 + 214)
  have l3 := encode_window_byte_lt ((f3 + 214) % 256) (f4 + 7)
  have l4 := encode_window_byte_lt ((f4 + 7) % 256) (f5 + 147)
  have l5 := encode_window_byte_lt ((f5 + 147) % 256) (f6 + 147)
  have l6 := encode_window_byte_lt ((f6 + 147) % 256) (f7 + 86)
  have l7 := encode_window_byte_lt ((f7 + 86) % 256) (f0 + 132)
  have m0 : (f0 + 132) % 256 < 256 := Nat.mod_lt _ (by decide)
  have m1 : (f1 + 71) % 256 < 256 := Nat.mod_lt _ (by decide)
  have m2 : (f2 + 86) % 256 < 256 := Nat.mod_lt _ (by decide)
  have m3 : (f3 + 214) % 256 < 256 := Nat.mod_lt _ (by decide)
  have m4 : (f4 + 7) % 256 < 256 := Nat.mod_lt _ (by decide)
  have m5 : (f5 + 147) % 256 < 256 := Nat.mod_lt _ (by decide)
  have m6 : (f6 + 147) % 256 < 256 := Nat.mod_lt _ (by decide)
  have m7 : (f7 + 86) % 256 < 256 := Nat.mod_lt _ (by decide)
  refine ⟨isFrame_eight.2 ⟨l0, l1, l2, l3, l4, l5, l6, l7⟩, ?_⟩
  have e0 := (shl5_or_shr3 _ _ l0).trans (reshift_byte ((f7 + 86) % 256) _ _ m0 m1)
  have e1 := (shl5_or_shr3 _ _ l1).trans (reshift_byte ((f0 + 132) % 256) _ _ m1 m2)
  have e2 := (shl5_or_shr3 _ _ l2).trans (reshift_byte ((f1 + 71) % 256) _ _ m2 m3)
  have e3 := (shl5_or_shr3 _ _ l3).trans (reshift_byte ((f2 + 86) % 256) _ _ m3 m4)
  have e4 := (shl5_or_shr3 _ _ l4).trans (reshift_byte ((f3 + 214) % 256) _ _ m4 m5)
  have e5 := (shl5_or_shr3 _ _ l5).trans (reshift_byte ((f4 + 7) % 256) _ _ m5 m6)
  have e6 := (shl5_or_shr3 _ _ l6).trans (reshift_byte ((f5 + 147) % 256) _ _ m6 m7)
  have e7 := (shl5_or_shr3 _ _ l7).trans (reshift_byte ((f6 + 147) % 256) _ _ m7 m0)
  simp only [spec_shift_sub, spec_byte, spec_bias_eq, range_eight, List.map_cons,
    List.map_nil, List.getD_cons_zero, List.getD_cons_succ, Nat.reduceAdd, Nat.reduceMod]
  rw [sub_bias_byte _ f0 132 h0 e0, sub_bias_byte _ f1 71 h1 e1, sub_bias_byte _ f2 86 h2 e2,
    sub_bias_byte _ f3 214 h3 e3, sub_bias_byte _ f4 7 h4 e4, sub_bias_byte _ f5 147 h5 e5,
    sub_bias_byte _ f6 147 h6 e6, sub_bias_byte _ f7 86 h7 e7]

/-! ## Helper lemmas: the shift stage is a rotation -/

theorem or_mod_two_pow (a b n : Nat) : (a ||| b) % 2 ^ n = a % 2 ^ n ||| b % 2 ^ n := by
  apply Nat.eq_of_testBit_eq
  intro i
  simp only [Nat.testBit_mod_two_pow, Nat.testBit_or]
  cases decide (i < n) <;> simp

/-- Rotation right by 3 bits, in arithmetic: the low three bits move to the
top, the other 61 bits move down. -/
theorem rotr64_three (w : Nat) (hw : w < 2 ^ 64) :
    rotr64 w 3 = w % 8 * 2 ^ 61 + w / 8 := by
  have h1 : w >>> 3 = w / 8 := by rw [Nat.shiftRight_eq_div_pow]
  have h2 : w <<< 61 = w * 2 ^ 61 := Nat.shiftLeft_eq w 61
  have h3 : w / 8 % 2 ^ 64 = w / 8 := Nat.mod_eq_of_lt (by omega)
  have h4 : w * 2 ^ 61 % 2 ^ 64 = 2 ^ 61 * (w % 8) := by omega
  have h5 : w / 8 < 2 ^ 61 := by omega
  unfold rotr64
  rw [or_mod_two_pow, h1, h2, h3, h4, Nat.or_comm, ← Nat.mul_add_lt_is_or h5, Nat.mul_comm]

theorem char_byte_to_char_nat (p : Platform) (x : Nat) :
    char_byte (to_char p (x : Int)) = x % 256 := by
  rw [char_byte_to_char]
  omega

/-- The bytes the shift stage writes. -/
theorem decode_shift_eight (p : Platform) (result : List Nat) (hres : result.length = 8)
    (b0 b1 b2 b3 b4 b5 b6 b7 : Nat)
    (hb : IsFrame [b0, b1, b2, b3, b4, b5, b6, b7]) :
    decode_shift p result [b0, b1, b2, b3, b4, b5, b6, b7]
      = [b7 % 8 * 32 + b0 / 8, b0 % 8 * 32 + b1 / 8, b1 % 8 * 32 + b2 / 8,
          b2 % 8 * 32 + b3 / 8, b3 % 8 * 32 + b4 / 8, b4 % 8 * 32 + b5 / 8,
          b5 % 8 * 32 + b6 / 8, b6 % 8 * 32 + b7 / 8] := by
  obtain ⟨r0, r1, r2, r3, r4, r5, r6, r7, rfl⟩ := list_eight hres
  obtain ⟨h0, h1, h2, h3, h4, h5, h6, h7⟩ := isFrame_eight.1 hb
  simp only [decode_shift, store_char, List.set_cons_zero, List.set_cons_succ,
    List.getD_cons_zero, List.getD_cons_succ, char_byte_to_char_nat, tmp_or_mod,
    shl5_or_shr3 _ _ h0, shl5_or_shr3 _ _ h1, shl5_or_shr3 _ _ h2, shl5_or_shr3 _ _ h3,
    shl5_or_shr3 _ _ h4, shl5_or_shr3 _ _ h5, shl5_or_shr3 _ _ h6, shl5_or_shr3 _ _ h7]

/-- The shift stage rotates the 64-bit window right by 3 bits. -/
theorem decode_shift_rotr (p : Platform) (result b : List Nat) (hres : result.length = 8)
    (hb : IsFrame b) :
    window64 (decode_shift p result b) = rotr64 (window64 b) 3 := by
  obtain ⟨b0, b1, b2, b3, b4, b5, b6, b7, rfl⟩ := list_eight hb.1
  obtain ⟨h0, h1, h2, h3, h4, h5, h6, h7⟩ := isFrame_eight.1 hb
  rw [decode_shift_eight p result hres _ _ _ _ _ _ _ _ hb]
  have hw : window64 [b0, b1, b2, b3, b4, b5, b6, b7] < 2 ^ 64 := by
    simp only [window64, List.foldl_cons, List.foldl_nil]
    omega
  rw [rotr64_three _ hw]
  simp only [window64, List.foldl_cons, List.foldl_nil]
  omega

/-- Decoding after encoding, and encoding after decoding, under one key. -/
theorem spec_decode_encode (key f : List Nat) (hkey : IsFrame key) (hf : IsFrame f) :
    IsFrame (encode_buf key f) ∧ spec_decode (encode_buf key f) key = f := by
  have hw := shift_sub_encode_window f hf
  have hx : IsFrame (spec_xor (encode_window f) key) := by
    have h := spec_swap_xor_isFrame (spec_swap (encode_window f)) key ?_ hkey
    · have hc : spec_swap (spec_swap (encode_window f)) = encode_window f := by
        obtain ⟨a0, a1, a2, a3, a4, a5, a6, a7, ha⟩ := list_eight hw.1.1
        rw [ha]
        rfl
      rw [hc] at h
      exact h
    · obtain ⟨a0, a1, a2, a3, a4, a5, a6, a7, ha⟩ := list_eight hw.1.1
      have hl := hw.1
      rw [ha] at hl ⊢
      obtain ⟨l0, l1, l2, l3, l4, l5, l6, l7⟩ := isFrame_eight.1 hl
      exact isFrame_eight.2 ⟨l2, l4, l0, l7, l1, l6, l5, l3⟩
  constructor
  · obtain ⟨a0, a1, a2, a3, a4, a5, a6, a7, ha⟩ := list_eight hx.1
    unfold encode_buf
    rw [ha] at hx ⊢
    obtain ⟨l0, l1, l2, l3, l4, l5, l6, l7⟩ := isFrame_eight.1 hx
    exact isFrame_eight.2 ⟨l2, l4, l0, l7, l1, l6, l5, l3⟩
  · rw [spec_decode_eq, encode_buf, (spec_swap_xor_cancel (encode_window f) key hw.1.1 hkey.1).2]
    exact hw.2

theorem encode_spec_decode (key raw : List Nat) (hkey : IsFrame key) (hraw : IsFrame raw) :
    encode_buf key (spec_decode raw key) = raw := by
  rw [spec_decode_eq, encode_buf,
    encode_window_shift_sub _ (spec_swap_xor_isFrame raw key hraw hkey)]
  exact (spec_swap_xor_cancel raw key hraw.1 hkey.1).1

/-! ## Helper lemmas: device lookup -/

theorem is_co2_device_ret (usb : Libusb) (dev : Nat) :
    (is_co2_device usb dev).ret ≠ 0 ↔ IsCo2Device usb dev := by
  unfold is_co2_device IsCo2Device
  by_cases hr : (usb.libusb_get_device_descriptor dev).r < 0
  · simp only [hr, if_true, ne_eq, not_true_eq_false, false_iff, not_and]
    intro h
    omega
  · by_cases hm : (usb.libusb_get_device_descriptor dev).idVendor = 0x04d9
        ∧ (usb.libusb_get_device_descriptor dev).idProduct = 0xa052
    · simp only [hr, hm, if_false, if_true, and_self, and_true]
      constructor
      · intro _
        omega
      · intro _
        decide
    · simp only [hr, hm, if_false, ne_eq, not_true_eq_false, and_false]

theorem is_co2_device_trace (usb : Libusb) (dev : Nat) (c : Int) :
    Effect.stderr_get_device_list c ∉ (is_co2_device usb dev).trace := by
  simp only [is_co2_device]
  split
  · simp
  · split <;> simp

theorem find_loop_eq (usb : Libusb) (devs : List Nat) (hnn : ∀ d ∈ devs, d ≠ 0) :
    ∀ fuel i, devs.length < i + fuel →
      (find_loop usb devs fuel i).ret = first_co2 usb (devs.drop i) := by
  intro fuel
  induction fuel with
  | zero =>
    intro i hi
    have hle : devs.length ≤ i := by omega
    simp [find_loop, List.drop_of_length_le hle, first_co2]
  | succ n ih =>
    intro i hi
    by_cases hlt : i < devs.length
    · have hdrop : devs.drop i = devs[i] :: devs.drop (i + 1) := List.drop_eq_getElem_cons hlt
      have hget : devs.getD i 0 = devs[i] := by simp [List.getD_eq_getElem?_getD, hlt]
      have hne : devs[i] ≠ 0 := hnn _ (List.getElem_mem hlt)
      rw [hdrop, first_co2]
      simp only [find_loop, hget, hne, if_false]
      by_cases hm : IsCo2Device usb devs[i]
      · have h1 : (is_co2_device usb devs[i]).ret ≠ 0 := (is_co2_device_ret usb _).2 hm
        simp only [h1, hm, ne_eq, not_false_eq_true, if_true]
      · have h1 : ¬ (is_co2_device usb devs[i]).ret ≠ 0 :=
          fun h => hm ((is_co2_device_ret usb _).1 h)
        simp only [h1, hm, if_false]
        exact ih (i + 1) (by omega)
    · have hle : devs.length ≤ i := by omega
      have hget : devs.getD i 0 = 0 := by
        rw [List.getD_eq_getElem?_getD, List.getElem?_eq_none hle]
        rfl
      rw [List.drop_of_length_le hle]
      simp only [find_loop, hget, if_true, first_co2]

theorem find_loop_trace (usb : Libusb) (devs : List Nat) (c : Int) :
    ∀ fuel i, Effect.stderr_get_device_list c ∉ (find_loop usb devs fuel i).trace := by
  intro fuel
  induction fuel with
  | zero =>
    intro i
    simp [find_loop]
  | succ n ih =>
    intro i
    have h1 := is_co2_device_trace usb (devs.getD i 0) c
    have h2 := ih (i + 1)
    simp only [find_loop]
    split
    · simp
    · split
      · simp only [List.mem_append, List.mem_singleton, not_or]
        exact ⟨h1, by simp⟩
      · simp only [List.mem_append, not_or]
        exact ⟨h1, h2⟩

theorem first_co2_append (usb : Libusb) (pre : List Nat) (d : Nat) (post : List Nat)
    (hpre : ∀ x ∈ pre, ¬ IsCo2Device usb x) (hd : IsCo2Device usb d) :
    first_co2 usb (pre ++ d :: post) = d := by
  induction pre with
  | nil => simp [first_co2, hd]
  | cons x xs ih =>
    have hx : ¬ IsCo2Device usb x := hpre x (by simp)
    simp only [List.cons_append, first_co2, hx, if_false]
    exact ih (fun y hy => hpre y (by simp [hy]))

theorem first_co2_eq_zero (usb : Libusb) (devs : List Nat) (hnn : ∀ d ∈ devs, d ≠ 0) :
    first_co2 usb devs = 0 ↔ ∀ d ∈ devs, ¬ IsCo2Device usb d := by
  induction devs with
  | nil => simp [first_co2]
  | cons x xs ih =>
    have hx : x ≠ 0 := hnn x (by simp)
    have ih2 := ih (fun y hy => hnn y (by simp [hy]))
    by_cases hm : IsCo2Device usb x
    · simp [first_co2, hm, hx]
    · simp [first_co2, hm, ih2]

theorem find_device_of_list (usb : Libusb) (hcnt : 0 ≤ usb.libusb_get_device_list.cnt)
    (hnn : ∀ d ∈ usb.libusb_get_device_list.devs, d ≠ 0) :
    (co2mon_find_device usb).ret = first_co2 usb usb.libusb_get_device_list.devs := by
  have h := find_loop_eq usb usb.libusb_get_device_list.devs hnn
    (usb.libusb_get_device_list.devs.length + 1) 0 (by omega)
  unfold co2mon_find_device
  simp only [not_lt.2 hcnt, if_false]
  rw [h, List.drop_zero]

/-! ## The claims -/

/-- C9: the byte-swap step of `decode_buf` is an involution: on every 8-byte
buffer, the four swaps (0,2), (1,4), (3,7), (5,6) applied twice give back the
original byte order. -/
theorem decode_swaps_involution (buf : List Nat) (h : buf.length = 8) :
    decode_swaps (decode_swaps buf) = buf := by
  obtain ⟨a0, a1, a2, a3, a4, a5, a6, a7, rfl⟩ := list_eight h
  rw [swaps_eight, swaps_eight]

/-- Witness of C9 at the buffer 10, 11, ..., 17. -/
theorem decode_swaps_involution_witness :
    decode_swaps (decode_swaps [10, 11, 12, 13, 14, 15, 16, 17])
      = [10, 11, 12, 13, 14, 15, 16, 17] :=
  decode_swaps_involution [10, 11, 12, 13, 14, 15, 16, 17] (by decide)

/-- C1: for every 8-byte raw frame and key, on every platform (signed or
unsigned plain `char`), `decode_buf` leaves in `result` exactly the frame of the
specification's four steps: byte `i` is
`(((b[i-1] << 5) | (b[i] >> 3)) - c[i]) mod 256` with `b = swap(raw) XOR key`,
position `-1` read as 7, and `c` the nibble-swapped bytes of `"Htemp99e"`,
that is 0x84, 0x47, 0x56, 0xD6, 0x07, 0x93, 0x93, 0x56. -/
theorem decode_buf_refines_spec (p : Platform) (result raw key : List Nat)
    (hres : result.length = 8) (hraw : IsFrame raw) (hkey : IsFrame key) :
    (decode_buf p result raw key).result = spec_decode raw key
      ∧ (∀ i, i < 8 → (decode_buf p result raw key).result.getD i 0
            = spec_byte (spec_xor (spec_swap raw) key) i)
      ∧ spec_swap raw = decode_swaps raw
      ∧ spec_bias = [0x84, 0x47, 0x56, 0xD6, 0x07, 0x93, 0x93, 0x56] := by
  have h := decode_buf_result_eq p result raw key hres hraw hkey
  refine ⟨h, ?_, ?_, spec_bias_eq⟩
  · intro i hi
    rw [h, spec_decode, range_eight]
    interval_cases i <;> rfl
  · obtain ⟨a0, a1, a2, a3, a4, a5, a6, a7, rfl⟩ := list_eight hraw.1
    rw [swaps_eight]
    rfl

/-- Witness of C1 on `linux_x86_64`, at `sample_raw` and `sample_key`. -/
theorem decode_buf_refines_spec_witness :
    (decode_buf linux_x86_64 [0, 0, 0, 0, 0, 0, 0, 0] sample_raw sample_key).result = sample_frame
      ∧ spec_decode sample_raw sample_key = sample_frame :=
  have h := decode_buf_refines_spec linux_x86_64 [0, 0, 0, 0, 0, 0, 0, 0] sample_raw sample_key
    (by decide) (by decide) (by decide)
  have hs : spec_decode sample_raw sample_key = sample_frame := by decide
  ⟨h.1.trans hs, hs⟩

/-- C2: when the interrupt transfer reports a non-negative status and exactly
8 bytes transferred, `co2mon_read_data` returns 8 and the caller's `result`
buffer holds the decode of the delivered payload under the supplied key: the
frame of the specification's four steps, which is what `decode_buf` writes for
that raw frame and key. -/
theorem co2mon_read_data_full (p : Platform) (usb : Libusb) (handle : Nat)
    (key result : List Nat)
    (hr : 0 ≤ (read_transfer usb handle).r)
    (hlen : (read_transfer usb handle).actual_length = 8)
    (hdata : IsFrame (read_transfer usb handle).data)
    (hkey : IsFrame key) (hres : result.length = 8) :
    (co2mon_read_data p usb handle key result).ret = 8
      ∧ (co2mon_read_data p usb handle key result).result
          = spec_decode (read_transfer usb handle).data key
      ∧ (co2mon_read_data p usb handle key result).result
          = (decode_buf p result (read_transfer usb handle).data key).result := by
  have h := read_data_of_full p usb handle key result hr hlen
  have hd := decode_buf_result_eq p result (read_transfer usb handle).data key hres hdata hkey
  exact ⟨h.1, h.2.1.trans hd, h.2.1⟩

/-- Witness of C2: on the sample bus the transfer delivers `sample_raw`, and
the call returns 8 with `sample_frame` in the caller's buffer. -/
theorem co2mon_read_data_full_witness :
    (co2mon_read_data linux_arm32 sample_usb 113 sample_key [9, 9, 9, 9, 9, 9, 9, 9]).ret = 8
      ∧ (co2mon_read_data linux_arm32 sample_usb 113 sample_key [9, 9, 9, 9, 9, 9, 9, 9]).result
          = sample_frame :=
  have h := co2mon_read_data_full linux_arm32 sample_usb 113 sample_key [9, 9, 9, 9, 9, 9, 9, 9]
    (by decide) (by decide) (by decide) (by decide) (by decide)
  have hs : spec_decode (read_transfer sample_usb 113).data sample_key = sample_frame := by
    decide
  ⟨h.1, h.2.1.trans hs⟩

/-- C5: when the interrupt transfer reports a non-negative status and a
transferred byte count other than 8, `co2mon_read_data` returns 0 and the
caller's `result` buffer is exactly what it was before the call. -/
theorem co2mon_read_data_short (p : Platform) (usb : Libusb) (handle : Nat)
    (key result : List Nat)
    (hr : 0 ≤ (read_transfer usb handle).r)
    (hint : IsCInt (read_transfer usb handle).actual_length)
    (hlen : (read_transfer usb handle).actual_length ≠ 8) :
    (co2mon_read_data p usb handle key result).ret = 0
      ∧ (co2mon_read_data p usb handle key result).result = result := by
  have h := read_data_of_short p usb handle key result hr hint hlen
  exact ⟨h.1, h.2.1⟩

/-- Witness of C5: a 7-byte transfer and a 9-byte transfer. -/
theorem co2mon_read_data_short_witness :
    ((co2mon_read_data linux_x86_64 (sample_usb_transfer 0 7 sample_raw) 113 sample_key
          [1, 2, 3, 4, 5, 6, 7, 8]).ret = 0
        ∧ (co2mon_read_data linux_x86_64 (sample_usb_transfer 0 7 sample_raw) 113 sample_key
          [1, 2, 3, 4, 5, 6, 7, 8]).result = [1, 2, 3, 4, 5, 6, 7, 8])
      ∧ ((co2mon_read_data linux_arm32 (sample_usb_transfer 0 9 sample_raw) 113 sample_key
          [1, 2, 3, 4, 5, 6, 7, 8]).ret = 0
        ∧ (co2mon_read_data linux_arm32 (sample_usb_transfer 0 9 sample_raw) 113 sample_key
          [1, 2, 3, 4, 5, 6, 7, 8]).result = [1, 2, 3, 4, 5, 6, 7, 8]) :=
  ⟨co2mon_read_data_short linux_x86_64 (sample_usb_transfer 0 7 sample_raw) 113 sample_key
      [1, 2, 3, 4, 5, 6, 7, 8] (by decide) (by decide) (by decide),
    co2mon_read_data_short linux_arm32 (sample_usb_transfer 0 9 sample_raw) 113 sample_key
      [1, 2, 3, 4, 5, 6, 7, 8] (by decide) (by decide) (by decide)⟩

/-- C6: for every negative interrupt-transfer status `r`, whatever byte count
is reported, `co2mon_read_data` returns exactly `r`, a value that is negative
and so neither the 0 of a short read nor the 8 of a success, and the caller's
`result` buffer is unchanged. -/
theorem co2mon_read_data_error (p : Platform) (usb : Libusb) (handle : Nat)
    (key result : List Nat) (hr : (read_transfer usb handle).r < 0) :
    (co2mon_read_data p usb handle key result).ret = (read_transfer usb handle).r
      ∧ (co2mon_read_data p usb handle key result).ret < 0
      ∧ (co2mon_read_data p usb handle key result).ret ≠ 0
      ∧ (co2mon_read_data p usb handle key result).ret ≠ 8
      ∧ (co2mon_read_data p usb handle key result).result = result := by
  have h := read_data_of_error p usb handle key result hr
  have hret := h.1
  refine ⟨hret, ?_, ?_, ?_, h.2.1⟩ <;> omega

/-- Witness of C6: status -7 (a timeout) with a reported byte count of 8. -/
theorem co2mon_read_data_error_witness :
    (co2mon_read_data linux_x86_64 (sample_usb_transfer (-7) 8 sample_raw) 113 sample_key
        [1, 2, 3, 4, 5, 6, 7, 8]).ret = -7
      ∧ (co2mon_read_data linux_x86_64 (sample_usb_transfer (-7) 8 sample_raw) 113 sample_key
        [1, 2, 3, 4, 5, 6, 7, 8]).result = [1, 2, 3, 4, 5, 6, 7, 8] :=
  have h := co2mon_read_data_error linux_x86_64 (sample_usb_transfer (-7) 8 sample_raw) 113
    sample_key [1, 2, 3, 4, 5, 6, 7, 8] (by decide)
  ⟨h.1, h.2.2.2.2⟩

/-- C3, as stated, fails: on the sample bus the session that
`co2mon_open_device` alone starts is not armed, and `co2mon_read_data` on it
returns 8 with the decoded frame in the caller's buffer. -/
theorem poll_before_arm_decodes :
    session_open linux_x86_64 sample_usb 13 = some { handle := 113, armed := false }
      ∧ (session_poll linux_x86_64 sample_usb { handle := 113, armed := false } sample_key
          [0, 0, 0, 0, 0, 0, 0, 0]).ret = 8
      ∧ (session_poll linux_x86_64 sample_usb { handle := 113, armed := false } sample_key
          [0, 0, 0, 0, 0, 0, 0, 0]).result = sample_frame := by
  decide

/-- C3, amended: `co2mon_read_data` keeps no record of arming. On every session
reached by opening the device alone (not armed), a poll does what it does
after any call of `co2mon_send_magic_table` on the session, successful or not:
it returns the negative transfer status and leaves `result` alone when the
transfer fails, returns 0 and leaves `result` alone when the byte count is not
8, and returns 8 with the decoded frame in `result` when the transfer delivers
8 bytes. -/
theorem poll_ignores_arming (p : Platform) (usb : Libusb) (dev : Nat) (s : Session)
    (key result : List Nat)
    (hopen : session_open p usb dev = some s)
    (hint : IsCInt (read_transfer usb s.handle).actual_length) :
    s.armed = false
      ∧ (∀ usb2 key2, session_poll p usb (session_arm p usb2 s key2) key result
          = session_poll p usb s key result)
      ∧ ((read_transfer usb s.handle).r < 0 →
          (session_poll p usb s key result).ret = (read_transfer usb s.handle).r
            ∧ (session_poll p usb s key result).result = result)
      ∧ (0 ≤ (read_transfer usb s.handle).r → (read_transfer usb s.handle).actual_length ≠ 8 →
          (session_poll p usb s key result).ret = 0
            ∧ (session_poll p usb s key result).result = result)
      ∧ (0 ≤ (read_transfer usb s.handle).r → (read_transfer usb s.handle).actual_length = 8 →
          (session_poll p usb s key result).ret = 8
            ∧ (session_poll p usb s key result).result
                = (decode_buf p result (read_transfer usb s.handle).data key).result) := by
  refine ⟨(session_open_eq_some hopen).2.2, ?_, ?_, ?_, ?_⟩
  · intro usb2 key2
    unfold session_arm
    split <;> rfl
  · intro hr
    have h := read_data_of_error p usb s.handle key result hr
    exact ⟨h.1, h.2.1⟩
  · intro hr hlen
    have h := read_data_of_short p usb s.handle key result hr hint hlen
    exact ⟨h.1, h.2.1⟩
  · intro hr hlen
    have h := read_data_of_full p usb s.handle key result hr hlen
    exact ⟨h.1, h.2.1⟩

/-- Witness of the amended C3: the session opened on device 13 of the sample
bus, polled while the transfer times out (status -7). -/
theorem poll_ignores_arming_witness :
    session_open linux_x86_64 (sample_usb_transfer (-7) 0 sample_raw) 13
        = some { handle := 113, armed := false }
      ∧ (session_poll linux_x86_64 (sample_usb_transfer (-7) 0 sample_raw)
          { handle := 113, armed := false } sample_key [1, 2, 3, 4, 5, 6, 7, 8]).ret = -7 :=
  have hopen : session_open linux_x86_64 (sample_usb_transfer (-7) 0 sample_raw) 13
      = some { handle := 113, armed := false } := by decide
  have h := poll_ignores_arming linux_x86_64 (sample_usb_transfer (-7) 0 sample_raw) 13
    { handle := 113, armed := false } sample_key [1, 2, 3, 4, 5, 6, 7, 8] hopen (by decide)
  ⟨hopen, (h.2.2.1 (by decide)).1⟩

/-- C4 at an ILP32 target: `sizeof(magic_table)` is the size of a pointer, 4.
`co2mon_send_magic_table` asks for a 4-byte control transfer, returns 1 when
the transfer reports 4 bytes written, and returns 0 when it reports 8. -/
theorem send_magic_table_ilp32 :
    magic_table_wLength linux_arm32 = 4
      ∧ sample_usb.libusb_control_transfer 113
          (LIBUSB_ENDPOINT_OUT ||| LIBUSB_REQUEST_TYPE_CLASS ||| LIBUSB_RECIPIENT_INTERFACE)
          LIBUSB_REQUEST_SET_CONFIGURATION 0x0300 0 sample_key
          (magic_table_wLength linux_arm32) 2000 = 4
      ∧ (co2mon_send_magic_table linux_arm32 sample_usb 113 sample_key).ret = 1
      ∧ (co2mon_send_magic_table linux_arm32 (sample_usb_control 8) 113 sample_key).ret = 0 := by
  decide

/-- C7: for every device list a successful enumeration returns (non-negative
count, non-`NULL` entries), `co2mon_find_device` returns the first device in
list order whose descriptor reads successfully with vendor id `0x04d9` and
product id `0xa052`; the devices before it, with a descriptor that cannot be
read or with at most one matching identifier, are skipped. It returns `NULL`
if and only if the list is empty or no device in it matches. -/
theorem co2mon_find_device_first (usb : Libusb)
    (hcnt : 0 ≤ usb.libusb_get_device_list.cnt)
    (hnn : ∀ d ∈ usb.libusb_get_device_list.devs, d ≠ 0) :
    (∀ pre d post, usb.libusb_get_device_list.devs = pre ++ d :: post →
        (∀ x ∈ pre, ¬ IsCo2Device usb x) → IsCo2Device usb d →
        (co2mon_find_device usb).ret = d)
      ∧ ((co2mon_find_device usb).ret = 0 ↔
          usb.libusb_get_device_list.devs = []
            ∨ ∀ d ∈ usb.libusb_get_device_list.devs, ¬ IsCo2Device usb d) := by
  have h := find_device_of_list usb hcnt hnn
  constructor
  · intro pre d post hl hpre hd
    rw [h, hl]
    exact first_co2_append usb pre d post hpre hd
  · rw [h, first_co2_eq_zero usb _ hnn]
    constructor
    · intro hall
      exact Or.inr hall
    · intro hor
      rcases hor with hnil | hall
      · rw [hnil]
        simp
      · exact hall

/-- Witness of C7: on the sample bus (device 11 with the vendor id only, device
12 unreadable, device 13 the sensor) the call returns device 13; on an empty
bus it returns `NULL`. -/
theorem co2mon_find_device_first_witness :
    (co2mon_find_device sample_usb).ret = 13
      ∧ (co2mon_find_device (sample_usb_list 0 [])).ret = 0 :=
  ⟨(co2mon_find_device_first sample_usb (by decide) (by decide)).1 [11, 12] 13 [] rfl
      (by decide) (by decide),
    ((co2mon_find_device_first (sample_usb_list 0 []) (by decide) (by decide)).2).2
      (Or.inl rfl)⟩

/-- C8, as stated, fails: when listing the devices fails (count -99) and when
listing succeeds with three devices none of which is the sensor,
`co2mon_find_device` returns the same value, `NULL`. -/
theorem find_device_failure_not_distinct :
    (sample_usb_list (-99) []).libusb_get_device_list.cnt < 0
      ∧ 0 ≤ (sample_usb_list 2 [11, 12]).libusb_get_device_list.cnt
      ∧ (co2mon_find_device (sample_usb_list (-99) [])).ret = 0
      ∧ (co2mon_find_device (sample_usb_list 2 [11, 12])).ret = 0
      ∧ (co2mon_find_device (sample_usb_list (-99) [])).ret
          = (co2mon_find_device (sample_usb_list 2 [11, 12])).ret := by
  decide

/-- C8, amended: `co2mon_find_device` returns `NULL` both when listing the
devices fails (`fail`, negative count) and when listing succeeds but no device
matches (`ok`); the two outcomes differ in the diagnostic only: the line
`libusb_get_device_list: error <count>` is all that is written to `stderr` in
the first case and is never written in the second. -/
theorem find_device_failure_reported_on_stderr (fail ok : Libusb)
    (hfail : fail.libusb_get_device_list.cnt < 0)
    (hok : 0 ≤ ok.libusb_get_device_list.cnt)
    (hnn : ∀ d ∈ ok.libusb_get_device_list.devs, d ≠ 0)
    (hnone : ∀ d ∈ ok.libusb_get_device_list.devs, ¬ IsCo2Device ok d) :
    (co2mon_find_device fail).ret = 0
      ∧ (co2mon_find_device ok).ret = 0
      ∧ (co2mon_find_device fail).trace
          = [Effect.stderr_get_device_list fail.libusb_get_device_list.cnt]
      ∧ ∀ c, Effect.stderr_get_device_list c ∉ (co2mon_find_device ok).trace := by
  refine ⟨?_, ?_, ?_, ?_⟩
  · unfold co2mon_find_device
    simp only [hfail, if_true]
  · rw [find_device_of_list ok hok hnn]
    exact (first_co2_eq_zero ok _ hnn).2 hnone
  · unfold co2mon_find_device
    simp only [hfail, if_true]
  · intro c
    have h := find_loop_trace ok ok.libusb_get_device_list.devs c
      (ok.libusb_get_device_list.devs.length + 1) 0
    unfold co2mon_find_device
    simp only [not_lt.2 hok, if_false, List.mem_append, List.mem_singleton, not_or]
    exact ⟨h, by simp⟩

/-- Witness of the amended C8: a failed listing (count -99) against a bus of
two devices that do not match. -/
theorem find_device_failure_reported_on_stderr_witness :
    (co2mon_find_device (sample_usb_list (-99) [])).ret = 0
      ∧ (co2mon_find_device (sample_usb_list 2 [11, 12])).ret = 0
      ∧ (co2mon_find_device (sample_usb_list (-99) [])).trace
          = [Effect.stderr_get_device_list (-99)]
      ∧ ∀ c, Effect.stderr_get_device_list c
          ∉ (co2mon_find_device (sample_usb_list 2 [11, 12])).trace :=
  find_device_failure_reported_on_stderr (sample_usb_list (-99) []) (sample_usb_list 2 [11, 12])
    (by decide) (by decide) (by decide) (by decide)

/-- C10: `decode_buf` loses no information. For every 8-byte key, the map from
raw frame to decoded frame sends 8-byte frames to 8-byte frames, is injective
(two raw frames with the same decode are equal) and surjective (every 8-byte
frame is the decode of some raw frame); and the shift stage rotates the 64-bit
window (bytes concatenated, byte 0 most significant) right by 3 bits. -/
theorem decode_buf_bijective (p : Platform) (key result : List Nat)
    (hkey : IsFrame key) (hres : result.length = 8) :
    (∀ raw, IsFrame raw → IsFrame (decode_buf p result raw key).result)
      ∧ (∀ r1 r2, IsFrame r1 → IsFrame r2 →
          (decode_buf p result r1 key).result = (decode_buf p result r2 key).result → r1 = r2)
      ∧ (∀ f, IsFrame f → ∃ raw, IsFrame raw ∧ (decode_buf p result raw key).result = f)
      ∧ (∀ b, IsFrame b → window64 (decode_shift p result b) = rotr64 (window64 b) 3) := by
  refine ⟨?_, ?_, ?_, ?_⟩
  · intro raw hraw
    rw [decode_buf_result_eq p result raw key hres hraw hkey, spec_decode_eq]
    exact spec_shift_sub_isFrame _
  · intro r1 r2 h1 h2 heq
    rw [decode_buf_result_eq p result r1 key hres h1 hkey,
      decode_buf_result_eq p result r2 key hres h2 hkey] at heq
    have e1 := encode_spec_decode key r1 hkey h1
    have e2 := encode_spec_decode key r2 hkey h2
    rw [← e1, ← e2, heq]
  · intro f hf
    have h := spec_decode_encode key f hkey hf
    refine ⟨encode_buf key f, h.1, ?_⟩
    rw [decode_buf_result_eq p result _ key hres h.1 hkey]
    exact h.2
  · intro b hb
    exact decode_shift_rotr p result b hres hb

/-- Witness of C10 under `sample_key`: the window 01 02 03 04 05 06 07 09 is
rotated right by 3 bits, and `sample_frame` is the decode of a raw frame. -/
theorem decode_buf_bijective_witness :
    window64 (decode_shift linux_x86_64 [0, 0, 0, 0, 0, 0, 0, 0] [1, 2, 3, 4, 5, 6, 7, 9])
        = rotr64 0x0102030405060709 3
      ∧ ∃ raw, IsFrame raw
          ∧ (decode_buf linux_x86_64 [0, 0, 0, 0, 0, 0, 0, 0] raw sample_key).result
              = sample_frame :=
  have h := decode_buf_bijective linux_x86_64 sample_key [0, 0, 0, 0, 0, 0, 0, 0]
    (by decide) (by decide)
  ⟨h.2.2.2 [1, 2, 3, 4, 5, 6, 7, 9] (by decide), h.2.2.1 sample_frame (by decide)⟩

end Co2mon
